import Mathlib

/-!
# rootly-proxy: hostname-routed reverse proxy

A shallow embedding of the decision logic of `internal/handler/proxy.go`,
`internal/database/database.go` and the certificate callback of
`cmd/server/main.go`, followed by theorems about it.

Conventions of the embedding
* Go `string` values are Lean `String`s (valid UTF-8 text); every delimiter the
  code looks for is ASCII, so searching by character and by byte pick the same
  substrings.
* A Go `(value, error)` pair is a pair of `Option`s: `none` is `nil`.
* Calls into the environment (repository lookup, `httpClient.Get`, the row
  scan, the certificate obtainer) are function parameters; the effects the code
  causes (fetches made, delays slept, obtainer consultations) are returned in
  the result so that they can be counted.
* `log.Printf` lines do not influence control flow and are left out.
* The response writer is the in-memory recorder of the handler's tests; what
  `net/http`'s server adds on the wire afterwards is outside `ServeHTTP`.
* Standard-library functions the code calls (`http.Error`, `Header.Add`,
  `net.SplitHostPort`, `errors.Is`) are transcribed from the Go standard library.
-/

namespace RootlyProxy

/-! ## Go errors -/

/-- Go `error` values: a comparable sentinel value, or a value that wraps another
one (as `fmt.Errorf` with `%w` builds). -/
inductive GoError where
  | sentinel (msg : String)
  | wrapped (msg : String) (inner : GoError)
  deriving DecidableEq, Repr

/-- Go `errors.Is`: walks the `Unwrap` chain of `err` looking for `target`. -/
def errorsIs : GoError → GoError → Bool
  | .sentinel m, target => decide (GoError.sentinel m = target)
  | .wrapped m inner, target =>
    decide (GoError.wrapped m inner = target) || errorsIs inner target

/-! ## HTTP headers (`net/http.Header`, a `map[string][]string`) -/

/-- Byte strings: response bodies. -/
abbrev Bytes := List UInt8

/-- The bytes `fmt.Fprintln` and friends write for a Go string. -/
def stringBytes (s : String) : Bytes := s.toUTF8.data.toList

/-- A Go `map[string][]string` as an association list; the order of the list is
the order in which a `range` loop happens to visit the map. -/
abbrev Header := List (String × List String)

/-- Map read `h[key]`: the values stored under `key`, `nil` when absent. -/
def Header.values : Header → String → List String
  | [], _ => []
  | (k, vs) :: t, key => if k = key then vs else Header.values t key

/-- Map write `h[key] = vs`. -/
def Header.put : Header → String → List String → Header
  | [], key, vs => [(key, vs)]
  | (k, old) :: t, key, vs =>
    if k = key then (k, vs) :: t else (k, old) :: Header.put t key vs

/-- The keys of a header map are a Go map's keys: each occurs once. -/
def Header.IsMap (h : Header) : Prop := (h.map Prod.fst).Nodup

instance (h : Header) : Decidable (Header.IsMap h) := by
  unfold Header.IsMap; infer_instance

/-- Go `textproto.validHeaderFieldByte`: the RFC 7230 token characters. -/
def validHeaderFieldByte (c : Char) : Bool :=
  c.isAlphanum ||
    [ '!', '#', '$', '%', '&', Char.ofNat 39, '*', '+', '-', '.', '^', '_',
      Char.ofNat 96, '|', '~' ].contains c

/-- The rewriting loop of Go `textproto.canonicalMIMEHeaderKey`: upper case at the
start and after each dash, lower case elsewhere. -/
def canonicalizeLoop : Bool → List Char → List Char
  | _, [] => []
  | upper, c :: cs =>
    let c1 :=
      if upper && decide ('a' ≤ c) && decide (c ≤ 'z') then Char.ofNat (c.toNat - 32)
      else if !upper && decide ('A' ≤ c) && decide (c ≤ 'Z') then Char.ofNat (c.toNat + 32)
      else c
    c1 :: canonicalizeLoop (c1 == '-') cs

/-- The validity scan of Go `textproto.canonicalMIMEHeaderKey`: `none` when a byte
that is neither a token byte nor a space occurs, else `some noCanon`. -/
def scanHeaderKey : Bool → List Char → Option Bool
  | noCanon, [] => some noCanon
  | noCanon, c :: cs =>
    if validHeaderFieldByte c then scanHeaderKey noCanon cs
    else if c = ' ' then scanHeaderKey true cs
    else none

/-- Go `textproto.canonicalMIMEHeaderKey` (the string it returns). -/
def canonicalMIMEHeaderKeyBytes (a : List Char) : List Char :=
  match scanHeaderKey false a with
  | none => a
  | some true => a
  | some false => canonicalizeLoop true a

/-- The quick check of Go `textproto.CanonicalMIMEHeaderKey`: `whole` is the full
key, the list argument what is left to inspect. -/
def quickCheck (whole : List Char) : Bool → List Char → List Char
  | _, [] => whole
  | upper, c :: cs =>
    if !validHeaderFieldByte c then whole
    else if upper && decide ('a' ≤ c) && decide (c ≤ 'z') then canonicalMIMEHeaderKeyBytes whole
    else if !upper && decide ('A' ≤ c) && decide (c ≤ 'Z') then canonicalMIMEHeaderKeyBytes whole
    else quickCheck whole (c == '-') cs

/-- Go `textproto.CanonicalMIMEHeaderKey`, which `Header.Add` and `Header.Set`
apply to the key. -/
def CanonicalMIMEHeaderKey (s : String) : String :=
  String.mk (quickCheck s.data true s.data)

/-- Go `Header.Add(key, value)`: append `value` to the values under the canonical
form of `key`. -/
def Header.Add (h : Header) (key value : String) : Header :=
  let key := CanonicalMIMEHeaderKey key
  Header.put h key (Header.values h key ++ [value])

/-- Go `Header.Set(key, value)`: replace the values under the canonical form of
`key` by the single `value`. -/
def Header.Set (h : Header) (key value : String) : Header :=
  Header.put h (CanonicalMIMEHeaderKey key) [value]

/-- The header map of a response read by `net/http`'s client: a map whose keys
are already in canonical form. -/
def Header.Canonical (h : Header) : Prop :=
  ∀ e ∈ h, CanonicalMIMEHeaderKey e.1 = e.1

instance (h : Header) : Decidable (Header.Canonical h) := by
  unfold Header.Canonical; infer_instance

/-- The canonical form of a key, stated at once: keys made of token bytes only are
re-cased, all others are left alone. -/
def canonSpec (l : List Char) : List Char :=
  if l.all validHeaderFieldByte then canonicalizeLoop true l else l

/-- One step of the rewriting loop: the character written for `c`. -/
def canonicalizeChar (upper : Bool) (c : Char) : Char :=
  if upper && decide ('a' ≤ c) && decide (c ≤ 'z') then Char.ofNat (c.toNat - 32)
  else if !upper && decide ('A' ≤ c) && decide (c ≤ 'Z') then Char.ofNat (c.toNat + 32)
  else c

/-- All values stored in `h` under keys whose canonical form is `name`, in the
order of the entries. -/
def Header.valuesUnder : Header → String → List String
  | [], _ => []
  | (k, vs) :: t, name =>
    if CanonicalMIMEHeaderKey k = name then vs ++ Header.valuesUnder t name
    else Header.valuesUnder t name

/-! ## The response writer -/

/-- Go `http.StatusOK`. -/
def StatusOK : Int := 200
/-- Go `http.StatusNotFound`. -/
def StatusNotFound : Int := 404
/-- Go `http.StatusBadGateway`. -/
def StatusBadGateway : Int := 502

/-- An `http.ResponseWriter` as `httptest.ResponseRecorder` implements it (the
writer the handler's tests use): writes append and never fail. `sent` is the
snapshot of the header map taken when the status line is written. -/
structure ResponseRecorder where
  HeaderMap : Header
  wroteHeader : Bool
  Code : Int
  sent : Header
  Body : Bytes
  deriving DecidableEq, Repr

/-- Go `httptest.NewRecorder()`: the state of a writer at the start of a request. -/
def NewRecorder : ResponseRecorder :=
  { HeaderMap := [], wroteHeader := false, Code := 200, sent := [], Body := [] }

/-- Go `w.WriteHeader(code)`: the first call fixes the status and the headers. -/
def ResponseRecorder.WriteHeader (w : ResponseRecorder) (code : Int) : ResponseRecorder :=
  if w.wroteHeader then w
  else { w with wroteHeader := true, Code := code, sent := w.HeaderMap }

/-- Go `w.Write(buf)`: writes the status 200 first when none was written. -/
def ResponseRecorder.Write (w : ResponseRecorder) (buf : Bytes) : ResponseRecorder :=
  let w1 := if w.wroteHeader then w else w.WriteHeader 200
  { w1 with Body := w1.Body ++ buf }

/-- Go `http.Error(w, error, code)`: plain-text content type, the status, then
the message and a newline (`fmt.Fprintln`). Newer Go versions first delete a
`Content-Length` header, which a writer at the start of a request does not have. -/
def httpError (w : ResponseRecorder) (error : String) (code : Int) : ResponseRecorder :=
  let w1 := { w with HeaderMap := Header.Set w.HeaderMap "Content-Type" "text/plain; charset=utf-8" }
  let w2 := { w1 with HeaderMap := Header.Set w1.HeaderMap "X-Content-Type-Options" "nosniff" }
  let w3 := w2.WriteHeader code
  w3.Write (stringBytes (error ++ "\n"))

/-! ## `internal/database`: the data model -/

/-- Go `database.StatusPage`. -/
structure StatusPage where
  ID : Int
  Hostname : String
  PageDataURL : String
  deriving DecidableEq, Repr

/-! ## `internal/handler`: `ProxyHandler.ServeHTTP` -/

/-- The fields of `http.Response` the handler reads. `Body` is the sequence of
bytes the body reader yields until it ends; `io.Copy` writes every byte read. -/
structure Response where
  StatusCode : Int
  Header : Header
  Body : Bytes
  deriving DecidableEq, Repr

/-- Go `handler.ProxyHandler`. `repository` is `Repository.FindByHostname`;
`httpClient n url` is what the `n`-th call (counted from 0) of `httpClient.Get`
within the request returns when given `url`. -/
structure ProxyHandler where
  repository : String → Option StatusPage × Option GoError
  httpClient : Nat → String → Option Response × Option GoError

/-- The part of `http.Request` the handler reads. -/
structure Request where
  Host : String

/-- The variables of the retry loop (`resp`, `err`) and the effects so far: the
URLs passed to `httpClient.Get` in order, and the `time.Sleep` durations in
nanoseconds in order. -/
structure LoopState where
  resp : Option Response
  err : Option GoError
  fetches : List String
  sleeps : List Nat
  deriving DecidableEq, Repr

/-- Go `time.Millisecond`, in nanoseconds (the unit of `time.Duration`). -/
def Millisecond : Nat := 1000000

/-- The delay `time.Duration(100*(1<<attempt)) * time.Millisecond` (no overflow
can occur for the attempts the loop reaches). -/
def backoff (attempt : Nat) : Nat := 100 * (1 <<< attempt) * Millisecond

/-- The loop `for attempt := 0; attempt < maxRetries; attempt++ { ... }` of
`ServeHTTP`, from the given `attempt` on. The first argument bounds the number of
iterations; `maxRetries - attempt` is enough (`fetchLoop_fuel`). -/
def fetchLoop (get : Nat → String → Option Response × Option GoError) (url : String)
    (maxRetries : Nat) : Nat → Nat → LoopState → LoopState
  | 0, _, st => st
  | fuel + 1, attempt, st =>
    if attempt < maxRetries then
      let r := get st.fetches.length url
      let st1 : LoopState :=
        { resp := r.1, err := r.2, fetches := st.fetches ++ [url], sleeps := st.sleeps }
      if r.2 = none then st1
      else
        let st2 : LoopState :=
          if attempt < maxRetries - 1 then { st1 with sleeps := st1.sleeps ++ [backoff attempt] }
          else st1
        fetchLoop get url maxRetries fuel (attempt + 1) st2
    else st

/-- The two nested `range` loops copying `resp.Header` into `w.Header()`. -/
def copyHeader (dst : Header) (src : Header) : Header :=
  src.foldl (fun acc kv => kv.2.foldl (fun acc1 value => Header.Add acc1 kv.1 value) acc) dst

/-- What one call of `ServeHTTP` did: the state of the response writer, the
backend fetches and sleeps it made, and whether it ended in a run-time panic
(a `nil` response dereferenced). -/
structure Outcome where
  w : ResponseRecorder
  fetches : List String
  sleeps : List Nat
  panicked : Bool
  deriving DecidableEq, Repr

/-- Go `(*ProxyHandler).ServeHTTP`. -/
def ServeHTTP (h : ProxyHandler) (w : ResponseRecorder) (r : Request) : Outcome :=
  let hostname := r.Host
  let found := h.repository hostname
  if found.2 ≠ none then
    { w := httpError w "502 - Bad Gateway" StatusBadGateway,
      fetches := [], sleeps := [], panicked := false }
  else
    match found.1 with
    | none =>
      { w := httpError w "404 - Domain not found" StatusNotFound,
        fetches := [], sleeps := [], panicked := false }
    | some statusPage =>
      let maxRetries := 3
      let st := fetchLoop h.httpClient statusPage.PageDataURL maxRetries maxRetries 0
        { resp := none, err := none, fetches := [], sleeps := [] }
      if st.err ≠ none then
        { w := httpError w "502 - Bad Gateway" StatusBadGateway,
          fetches := st.fetches, sleeps := st.sleeps, panicked := false }
      else
        match st.resp with
        | none => { w := w, fetches := st.fetches, sleeps := st.sleeps, panicked := true }
        | some resp =>
          if resp.StatusCode ≠ StatusOK then
            { w := httpError w "502 - Bad Gateway" StatusBadGateway,
              fetches := st.fetches, sleeps := st.sleeps, panicked := false }
          else
            let w1 := { w with HeaderMap := copyHeader w.HeaderMap resp.Header }
            let w2 := w1.WriteHeader resp.StatusCode
            let w3 := w2.Write resp.Body
            { w := w3, fetches := st.fetches, sleeps := st.sleeps, panicked := false }

/-! ## `internal/database`: `PostgresRepository.FindByHostname` -/

/-- Go `bytealg.IndexByteString`: position of the first `c`; `none` stands for -1. -/
def indexByte : List Char → Char → Option Nat
  | [], _ => none
  | x :: xs, c => if x = c then some 0 else (indexByte xs c).map (· + 1)

/-- Go `bytealg.LastIndexByteString`: position of the last `c`; `none` stands
for -1. -/
def lastIndexByte : List Char → Char → Option Nat
  | [], _ => none
  | x :: xs, c =>
    match lastIndexByte xs c with
    | some i => some (i + 1)
    | none => if x = c then some 0 else none

/-- The `addrErr` closure of Go `net.SplitHostPort`: empty host and port and an
`*AddrError` for the address. -/
def addrErr (addr why : String) : String × String × Option GoError :=
  ("", "", some (GoError.sentinel ("address " ++ addr ++ ": " ++ why)))

/-- Go `net.SplitHostPort` (standard library, `net/ipsock.go`): splits
`host:port`, `[host]:port` into host and port; the third component is the error. -/
def SplitHostPort (hostport : String) : String × String × Option GoError :=
  let s := hostport.data
  let missingPort := "missing port in address"
  let tooManyColons := "too many colons in address"
  match lastIndexByte s ':' with
  | none => addrErr hostport missingPort
  | some i =>
    let finish (host : List Char) (j k : Nat) : String × String × Option GoError :=
      if (indexByte (s.drop j) '[').isSome then addrErr hostport "unexpected '[' in address"
      else if (indexByte (s.drop k) ']').isSome then addrErr hostport "unexpected ']' in address"
      else (String.mk host, String.mk (s.drop (i + 1)), none)
    if s.head? = some '[' then
      match indexByte s ']' with
      | none => addrErr hostport "missing ']' in address"
      | some end_ =>
        if end_ + 1 = s.length then addrErr hostport missingPort
        else if end_ + 1 = i then finish ((s.take end_).drop 1) 1 (end_ + 1)
        else if (s.drop (end_ + 1)).head? = some ':' then addrErr hostport tooManyColons
        else addrErr hostport missingPort
    else
      let host := s.take i
      if (indexByte host ':').isSome then addrErr hostport tooManyColons
      else finish host 0 0

/-- Go `database.ErrNoRows` (`sql.ErrNoRows`). -/
def ErrNoRows : GoError := GoError.sentinel "sql: no rows in result set"

/-- Go `database.Row`: `Scan` gets the destination variables (here the fields of
the `StatusPage` being filled) and returns them as it leaves them, with its error. -/
abbrev Row := StatusPage → StatusPage × Option GoError

/-- Go `database.DB`: `QueryRow(query, arg)`. -/
abbrev DB := String → String → Row

/-- The key `FindByHostname` queries with: the host part when `net.SplitHostPort`
succeeds, the original string when it fails (lines 51-56). -/
def hostKey (hostname : String) : String :=
  let split := SplitHostPort hostname
  if split.2.2 ≠ none then hostname else split.1

/-- The query text of `FindByHostname`. -/
def findQuery : String :=
  "SELECT id, hostname, page_data_url FROM status_pages WHERE hostname = $1"

/-- Go `(*PostgresRepository).FindByHostname`. -/
def FindByHostname (db : DB) (hostname : String) : Option StatusPage × Option GoError :=
  let host := hostKey hostname
  let query := findQuery
  let scanned := db query host { ID := 0, Hostname := "", PageDataURL := "" }
  match scanned.2 with
  | some err => if errorsIs err ErrNoRows then (none, none) else (none, some err)
  | none => (some scanned.1, none)

/-! ## `cmd/server`: the certificate callback of `setupHTTPSServer` -/

/-- Go `tls.Certificate`: the DER chain and (an encoding of) the private key. -/
structure TLSCertificate where
  Certificate : List Bytes
  PrivateKey : Bytes
  deriving DecidableEq, Repr

/-- The part of `tls.ClientHelloInfo` the callback reads. -/
structure ClientHelloInfo where
  ServerName : String
  deriving DecidableEq, Repr

/-- What one call of the callback returns, `(cert, err)`, together with the
hellos it passed on to `certManager.GetCertificate`. -/
structure CertResult where
  cert : Option TLSCertificate
  err : Option GoError
  consulted : List ClientHelloInfo
  deriving DecidableEq, Repr

/-- The certificate obtainer as it behaves at the time of one call:
`certManager.GetCertificate`. -/
abbrev Obtainer := ClientHelloInfo → Option TLSCertificate × Option GoError

/-- The `GetCertificate` closure of `setupHTTPSServer`, over the captured
`localhostCert`. -/
def GetCertificate (localhostCert : TLSCertificate) (certManager : Obtainer)
    (hello : ClientHelloInfo) : CertResult :=
  if hello.ServerName = "localhost" ∨ hello.ServerName = "127.0.0.1" then
    { cert := some localhostCert, err := none, consulted := [] }
  else
    let got := certManager hello
    if got.2 ≠ none then
      { cert := some localhostCert, err := none, consulted := [hello] }
    else
      { cert := got.1, err := none, consulted := [hello] }

/-- Go `setupHTTPSServer`, as far as the TLS configuration goes: `generated` is
what `generateSelfSignedCert()` returned; `none` is the `log.Fatalf` exit. -/
def setupHTTPSServer (generated : TLSCertificate × Option GoError) :
    Option (Obtainer → ClientHelloInfo → CertResult) :=
  if generated.2 ≠ none then none
  else some (GetCertificate generated.1)

/-! ## Concrete repositories, backends and requests -/

/-- A handler whose repository finds a record and whose backend refuses every
connection. -/
def unreachableBackend : ProxyHandler :=
  { repository := fun _ =>
      (some { ID := 2, Hostname := "status.error.com", PageDataURL := "http://backend/error" },
        none),
    httpClient := fun _ _ => (none, some (GoError.sentinel "connection refused")) }

/-- A directory that holds one record, under the key "::1". -/
def loopbackDB : DB := fun _ host sp =>
  if host = "::1" then
    ({ ID := 7, Hostname := "::1", PageDataURL := "http://backend/loopback" }, none)
  else (sp, some ErrNoRows)

/-- A handler whose repository holds no record (the test "unknown domain
returns 404"). -/
def emptyDirectory : ProxyHandler :=
  { repository := fun _ => (none, none),
    httpClient := fun _ _ => (none, some (GoError.sentinel "connection refused")) }

/-- The record of the test "successful proxy". -/
def acmePage : StatusPage :=
  { ID := 1, Hostname := "status.acme.com", PageDataURL := "http://backend/acme" }

/-- A handler whose repository lookup fails, and hands out a record with the
error. -/
def brokenDirectory : ProxyHandler :=
  { repository := fun _ =>
      (some acmePage,
        some (GoError.wrapped "query failed" (GoError.sentinel "connection reset"))),
    httpClient := fun _ _ => (none, some (GoError.sentinel "connection refused")) }

/-- A backend response with two header names, one of them with two values;
the body is "ACME". -/
def acmeResponse : Response :=
  { StatusCode := 200,
    Header := [("Set-Cookie", ["a=1", "b=2"]), ("Content-Type", ["text/html"])],
    Body := [65, 67, 77, 69] }

/-- A handler whose backend answers the first fetch with `acmeResponse`. -/
def healthyBackend : ProxyHandler :=
  { repository := fun _ => (some acmePage, none),
    httpClient := fun _ _ => (some acmeResponse, none) }

/-- A handler whose backend answers every fetch with a redirect status. -/
def redirectingBackend : ProxyHandler :=
  { repository := fun _ => (some acmePage, none),
    httpClient := fun _ _ => (some { StatusCode := 301, Header := [], Body := [] }, none) }

/-- A handler whose backend refuses the first two connections and then answers
with `acmeResponse`. -/
def flakyBackend : ProxyHandler :=
  { repository := fun _ => (some acmePage, none),
    httpClient := fun n _ =>
      if n < 2 then (none, some (GoError.sentinel "connection refused"))
      else (some acmeResponse, none) }

/-- The request of the handler's tests for the known host. -/
def acmeRequest : Request := { Host := "status.acme.com" }

/-- The directory of `TestFindByHostname`: one record, under "status.acme.com";
every other key scans to `ErrNoRows`. -/
def acmeDB : DB := fun _ host sp =>
  if host = "status.acme.com" then (acmePage, none) else (sp, some ErrNoRows)

/-- A directory whose storage fails on every query. -/
def failingDB : DB := fun _ _ sp => (sp, some (GoError.sentinel "connection reset"))

/-- A self-signed certificate. -/
def selfSigned : TLSCertificate := { Certificate := [[48, 130]], PrivateKey := [1] }

/-- An issued certificate. -/
def issued : TLSCertificate := { Certificate := [[48, 131]], PrivateKey := [2] }

/-- An obtainer that knows "status.acme.com" and fails for every other name. -/
def acmeObtainer : Obtainer := fun hello =>
  if hello.ServerName = "status.acme.com" then (some issued, none)
  else (none, some (GoError.sentinel "acme/autocert: host not configured"))

/-! ## Theorems: the forwarding pipeline -/

/-- Status and body of `http.Error` on a writer whose status is still unwritten. -/
theorem httpError_fresh (w : ResponseRecorder) (msg : String) (code : Int)
    (hw : w.wroteHeader = false) :
    (httpError w msg code).Code = code ∧
      (httpError w msg code).Body = w.Body ++ stringBytes (msg ++ "\n") ∧
      (httpError w msg code).wroteHeader = true := by
  simp [httpError, ResponseRecorder.WriteHeader, ResponseRecorder.Write, hw]

/-- More iterations than `maxRetries - attempt` change nothing: the loop ends by
its own guard. -/
theorem fetchLoop_fuel (get : Nat → String → Option Response × Option GoError) (url : String)
    (maxRetries : Nat) (fuel : Nat) :
    ∀ (attempt : Nat) (st : LoopState), maxRetries - attempt ≤ fuel →
      fetchLoop get url maxRetries (fuel + 1) attempt st =
        fetchLoop get url maxRetries fuel attempt st := by
  induction fuel with
  | zero =>
    intro attempt st hle
    have : ¬ attempt < maxRetries := by omega
    simp [fetchLoop, this]
  | succ n ih =>
    intro attempt st hle
    rw [fetchLoop]
    conv_rhs => rw [fetchLoop]
    by_cases hlt : attempt < maxRetries
    · simp only [hlt, if_true]
      by_cases herr : (get st.fetches.length url).2 = none
      · simp [herr]
      · simp only [herr, if_false]
        exact ih _ _ (by omega)
    · simp [hlt]

/-- C1: a lookup that finds no record and reports no error is answered with 404
and the body "404 - Domain not found\n"; no backend fetch and no sleep happens. -/
theorem ServeHTTP_not_found (h : ProxyHandler) (r : Request)
    (hlookup : h.repository r.Host = (none, none)) :
    (ServeHTTP h NewRecorder r).w.Code = 404 ∧
      (ServeHTTP h NewRecorder r).w.Body = stringBytes "404 - Domain not found\n" ∧
      (ServeHTTP h NewRecorder r).fetches.length = 0 ∧
      (ServeHTTP h NewRecorder r).sleeps.length = 0 ∧
      (ServeHTTP h NewRecorder r).panicked = false := by
  have hb := httpError_fresh NewRecorder "404 - Domain not found" StatusNotFound rfl
  simp only [ServeHTTP, hlookup]
  refine ⟨hb.1, ?_, rfl, rfl, rfl⟩
  simpa [NewRecorder] using hb.2.1

/-- C1 at the request of the test "unknown domain returns 404". -/
theorem ServeHTTP_not_found_witness :
    emptyDirectory.repository "unknown.com" = (none, none) ∧
      ((ServeHTTP emptyDirectory NewRecorder { Host := "unknown.com" }).w.Code = 404 ∧
        (ServeHTTP emptyDirectory NewRecorder { Host := "unknown.com" }).w.Body =
          stringBytes "404 - Domain not found\n" ∧
        (ServeHTTP emptyDirectory NewRecorder { Host := "unknown.com" }).fetches.length = 0 ∧
        (ServeHTTP emptyDirectory NewRecorder { Host := "unknown.com" }).sleeps.length = 0 ∧
        (ServeHTTP emptyDirectory NewRecorder { Host := "unknown.com" }).panicked = false) :=
  ⟨rfl, ServeHTTP_not_found emptyDirectory { Host := "unknown.com" } rfl⟩

/-- C2: a lookup that reports an error, whatever the error and whatever record
comes with it, is answered with 502 and the fixed body "502 - Bad Gateway\n",
never with 404, and no backend fetch happens. -/
theorem ServeHTTP_lookup_failed (h : ProxyHandler) (r : Request)
    (statusPage : Option StatusPage) (err : GoError)
    (hlookup : h.repository r.Host = (statusPage, some err)) :
    (ServeHTTP h NewRecorder r).w.Code = 502 ∧
      (ServeHTTP h NewRecorder r).w.Body = stringBytes "502 - Bad Gateway\n" ∧
      (ServeHTTP h NewRecorder r).fetches.length = 0 ∧
      (ServeHTTP h NewRecorder r).sleeps.length = 0 ∧
      (ServeHTTP h NewRecorder r).w.Code ≠ 404 := by
  have hb := httpError_fresh NewRecorder "502 - Bad Gateway" StatusBadGateway rfl
  simp only [ServeHTTP, hlookup]
  have hc : (httpError NewRecorder "502 - Bad Gateway" StatusBadGateway).Code = 502 := hb.1
  refine ⟨hc, ?_, rfl, rfl, ?_⟩
  · simpa [NewRecorder] using hb.2.1
  · simp [hc]

/-- C2 at a repository that returns a record together with a wrapped error. -/
theorem ServeHTTP_lookup_failed_witness :
    brokenDirectory.repository "status.acme.com" =
        (some acmePage,
          some (GoError.wrapped "query failed" (GoError.sentinel "connection reset"))) ∧
      ((ServeHTTP brokenDirectory NewRecorder acmeRequest).w.Code = 502 ∧
        (ServeHTTP brokenDirectory NewRecorder acmeRequest).w.Body =
          stringBytes "502 - Bad Gateway\n" ∧
        (ServeHTTP brokenDirectory NewRecorder acmeRequest).fetches.length = 0 ∧
        (ServeHTTP brokenDirectory NewRecorder acmeRequest).sleeps.length = 0 ∧
        (ServeHTTP brokenDirectory NewRecorder acmeRequest).w.Code ≠ 404) :=
  ⟨rfl, ServeHTTP_lookup_failed brokenDirectory acmeRequest (some acmePage)
    (GoError.wrapped "query failed" (GoError.sentinel "connection reset")) rfl⟩

/-- The retry loop when the first fetch reports no error. -/
theorem fetchLoop_first_ok (get : Nat → String → Option Response × Option GoError)
    (url : String) (resp : Option Response) (h0 : get 0 url = (resp, none)) :
    fetchLoop get url 3 3 0 { resp := none, err := none, fetches := [], sleeps := [] } =
      { resp := resp, err := none, fetches := [url], sleeps := [] } := by
  simp [fetchLoop, h0]

/-- The retry loop when the first two fetches report an error. -/
theorem fetchLoop_two_failed (get : Nat → String → Option Response × Option GoError)
    (url : String) (h0 : (get 0 url).2 ≠ none) (h1 : (get 1 url).2 ≠ none) :
    fetchLoop get url 3 3 0 { resp := none, err := none, fetches := [], sleeps := [] } =
      { resp := (get 2 url).1, err := (get 2 url).2, fetches := [url, url, url],
        sleeps := [backoff 0, backoff 1] } := by
  by_cases h2 : (get 2 url).2 = none <;> simp [fetchLoop, h0, h1, h2]

/-- The retry loop when the first fetch reports an error and the second none. -/
theorem fetchLoop_second_ok (get : Nat → String → Option Response × Option GoError)
    (url : String) (h0 : (get 0 url).2 ≠ none) (h1 : (get 1 url).2 = none) :
    fetchLoop get url 3 3 0 { resp := none, err := none, fetches := [], sleeps := [] } =
      { resp := (get 1 url).1, err := none, fetches := [url, url],
        sleeps := [backoff 0] } := by
  simp [fetchLoop, h0, h1]

/-- C3: a first fetch that completes without error and carries a status other
than 200 is answered with 502 after exactly one fetch and no sleep. -/
theorem ServeHTTP_bad_status (h : ProxyHandler) (r : Request) (statusPage : StatusPage)
    (resp : Response)
    (hlookup : h.repository r.Host = (some statusPage, none))
    (hget : h.httpClient 0 statusPage.PageDataURL = (some resp, none))
    (hstatus : resp.StatusCode ≠ 200) :
    (ServeHTTP h NewRecorder r).w.Code = 502 ∧
      (ServeHTTP h NewRecorder r).w.Body = stringBytes "502 - Bad Gateway\n" ∧
      (ServeHTTP h NewRecorder r).fetches = [statusPage.PageDataURL] ∧
      (ServeHTTP h NewRecorder r).fetches.length = 1 ∧
      (ServeHTTP h NewRecorder r).sleeps = [] := by
  have hb := httpError_fresh NewRecorder "502 - Bad Gateway" StatusBadGateway rfl
  have hout : ServeHTTP h NewRecorder r =
      { w := httpError NewRecorder "502 - Bad Gateway" StatusBadGateway,
        fetches := [statusPage.PageDataURL], sleeps := [], panicked := false } := by
    simp [ServeHTTP, hlookup, fetchLoop_first_ok _ _ _ hget, StatusOK, hstatus]
  rw [hout]
  refine ⟨hb.1, ?_, rfl, rfl, rfl⟩
  simpa [NewRecorder] using hb.2.1

/-- C3 at a backend that answers 301. -/
theorem ServeHTTP_bad_status_witness :
    redirectingBackend.httpClient 0 acmePage.PageDataURL =
        (some { StatusCode := 301, Header := [], Body := [] }, none) ∧
      ((ServeHTTP redirectingBackend NewRecorder acmeRequest).w.Code = 502 ∧
        (ServeHTTP redirectingBackend NewRecorder acmeRequest).w.Body =
          stringBytes "502 - Bad Gateway\n" ∧
        (ServeHTTP redirectingBackend NewRecorder acmeRequest).fetches =
          [acmePage.PageDataURL] ∧
        (ServeHTTP redirectingBackend NewRecorder acmeRequest).fetches.length = 1 ∧
        (ServeHTTP redirectingBackend NewRecorder acmeRequest).sleeps = []) :=
  ⟨rfl, ServeHTTP_bad_status redirectingBackend acmeRequest acmePage
    { StatusCode := 301, Header := [], Body := [] } rfl rfl (by decide)⟩

/-- C4: two failed fetches followed by a 200 response are answered with 200 and
the backend's body, after exactly three fetches and exactly two sleeps, of 100ms
and then 200ms. -/
theorem ServeHTTP_third_attempt_ok (h : ProxyHandler) (r : Request) (statusPage : StatusPage)
    (resp : Response)
    (hlookup : h.repository r.Host = (some statusPage, none))
    (hget0 : (h.httpClient 0 statusPage.PageDataURL).2 ≠ none)
    (hget1 : (h.httpClient 1 statusPage.PageDataURL).2 ≠ none)
    (hget2 : h.httpClient 2 statusPage.PageDataURL = (some resp, none))
    (hstatus : resp.StatusCode = 200) :
    (ServeHTTP h NewRecorder r).w.Code = 200 ∧
      (ServeHTTP h NewRecorder r).w.Body = resp.Body ∧
      (ServeHTTP h NewRecorder r).fetches.length = 3 ∧
      (ServeHTTP h NewRecorder r).sleeps = [100 * Millisecond, 200 * Millisecond] := by
  simp [ServeHTTP, hlookup, fetchLoop_two_failed _ _ hget0 hget1, hget2, StatusOK, hstatus,
    ResponseRecorder.WriteHeader, ResponseRecorder.Write, NewRecorder, backoff]

/-- C4 at a backend that refuses two connections and then answers 200. -/
theorem ServeHTTP_third_attempt_ok_witness :
    (flakyBackend.httpClient 0 acmePage.PageDataURL).2 ≠ none ∧
      (flakyBackend.httpClient 1 acmePage.PageDataURL).2 ≠ none ∧
      flakyBackend.httpClient 2 acmePage.PageDataURL = (some acmeResponse, none) ∧
      ((ServeHTTP flakyBackend NewRecorder acmeRequest).w.Code = 200 ∧
        (ServeHTTP flakyBackend NewRecorder acmeRequest).w.Body = acmeResponse.Body ∧
        (ServeHTTP flakyBackend NewRecorder acmeRequest).fetches.length = 3 ∧
        (ServeHTTP flakyBackend NewRecorder acmeRequest).sleeps =
          [100 * Millisecond, 200 * Millisecond]) :=
  ⟨by decide, by decide, rfl,
    ServeHTTP_third_attempt_ok flakyBackend acmeRequest acmePage acmeResponse rfl
      (by decide) (by decide) rfl rfl⟩

/-- C6: when every fetch reports an error, exactly three fetches are made and the
answer is 502 with the body "502 - Bad Gateway\n"; and whatever the repository
and the backend do, one request makes at most three fetches. -/
theorem ServeHTTP_all_attempts_failed (h : ProxyHandler) (r : Request)
    (statusPage : StatusPage)
    (hlookup : h.repository r.Host = (some statusPage, none))
    (hfail : ∀ n, (h.httpClient n statusPage.PageDataURL).2 ≠ none) :
    (ServeHTTP h NewRecorder r).fetches.length = 3 ∧
      (ServeHTTP h NewRecorder r).w.Code = 502 ∧
      (ServeHTTP h NewRecorder r).w.Body = stringBytes "502 - Bad Gateway\n" ∧
      ∀ (h1 : ProxyHandler) (w1 : ResponseRecorder) (r1 : Request),
        (ServeHTTP h1 w1 r1).fetches.length ≤ 3 := by
  have hb := httpError_fresh NewRecorder "502 - Bad Gateway" StatusBadGateway rfl
  have hout : ServeHTTP h NewRecorder r =
      { w := httpError NewRecorder "502 - Bad Gateway" StatusBadGateway,
        fetches := [statusPage.PageDataURL, statusPage.PageDataURL, statusPage.PageDataURL],
        sleeps := [backoff 0, backoff 1], panicked := false } := by
    simp [ServeHTTP, hlookup, fetchLoop_two_failed _ _ (hfail 0) (hfail 1), hfail 2]
  refine ⟨by rw [hout]; rfl, by rw [hout]; exact hb.1, ?_, ?_⟩
  · rw [hout]; simpa [NewRecorder] using hb.2.1
  · intro h1 w1 r1
    simp only [ServeHTTP]
    split
    · simp
    · split
      · simp
      · rename_i sp _
        by_cases g0 : (h1.httpClient 0 sp.PageDataURL).2 = none
        · have e := fetchLoop_first_ok h1.httpClient sp.PageDataURL
            (h1.httpClient 0 sp.PageDataURL).1 (Prod.ext rfl g0)
          simp only [e]
          split <;> [simp; (split <;> [simp; (split <;> simp)])]
        · by_cases g1 : (h1.httpClient 1 sp.PageDataURL).2 = none
          · simp only [fetchLoop_second_ok _ _ g0 g1]
            split <;> [simp; (split <;> [simp; (split <;> simp)])]
          · simp only [fetchLoop_two_failed _ _ g0 g1]
            split <;> [simp; (split <;> [simp; (split <;> simp)])]

/-- C6 at a backend that refuses every connection (the test "upstream fetch
failure returns 502"). -/
theorem ServeHTTP_all_attempts_failed_witness :
    (∀ n, (unreachableBackend.httpClient n "http://backend/error").2 ≠ none) ∧
      (ServeHTTP unreachableBackend NewRecorder { Host := "status.error.com" }).fetches.length
        = 3 ∧
      (ServeHTTP unreachableBackend NewRecorder { Host := "status.error.com" }).w.Code = 502 ∧
      (ServeHTTP unreachableBackend NewRecorder { Host := "status.error.com" }).w.Body =
        stringBytes "502 - Bad Gateway\n" :=
  ⟨fun _ => Option.some_ne_none _,
    (ServeHTTP_all_attempts_failed unreachableBackend { Host := "status.error.com" }
      { ID := 2, Hostname := "status.error.com", PageDataURL := "http://backend/error" } rfl
      (fun _ => Option.some_ne_none _)).1,
    (ServeHTTP_all_attempts_failed unreachableBackend { Host := "status.error.com" }
      { ID := 2, Hostname := "status.error.com", PageDataURL := "http://backend/error" } rfl
      (fun _ => Option.some_ne_none _)).2.1,
    (ServeHTTP_all_attempts_failed unreachableBackend { Host := "status.error.com" }
      { ID := 2, Hostname := "status.error.com", PageDataURL := "http://backend/error" } rfl
      (fun _ => Option.some_ne_none _)).2.2.1⟩

/-- C5: for a request whose three fetches all fail, the code makes three fetches
and sleeps 100ms and 200ms only; the third delay, 400ms after attempt 3, which the
claim and the comment at the sleep ("Exponential backoff: 100ms, 200ms, 400ms")
list, is not slept. -/
theorem ServeHTTP_backoff_three_failures :
    (ServeHTTP unreachableBackend NewRecorder { Host := "status.error.com" }).fetches.length = 3 ∧
      (ServeHTTP unreachableBackend NewRecorder { Host := "status.error.com" }).sleeps =
        [100 * Millisecond, 200 * Millisecond] ∧
      (ServeHTTP unreachableBackend NewRecorder { Host := "status.error.com" }).sleeps ≠
        [100 * Millisecond, 200 * Millisecond, 400 * Millisecond] := by
  decide

/-- The delays the retry loop sleeps: the delay computed at the failed attempt
`k + 1` is `100ms * 2^k`; when every fetch fails the delays slept are 100ms and
200ms; and whatever the backend does, the delays slept are an initial part of
100ms, 200ms. -/
theorem ServeHTTP_backoff_delays (h : ProxyHandler) (r : Request) (statusPage : StatusPage)
    (hlookup : h.repository r.Host = (some statusPage, none))
    (hfail : ∀ n, (h.httpClient n statusPage.PageDataURL).2 ≠ none) :
    (∀ k, backoff k = 100 * 2 ^ k * Millisecond) ∧
      (ServeHTTP h NewRecorder r).sleeps = [backoff 0, backoff 1] ∧
      (ServeHTTP h NewRecorder r).sleeps = [100 * Millisecond, 200 * Millisecond] ∧
      ∀ (h1 : ProxyHandler) (w1 : ResponseRecorder) (r1 : Request),
        (ServeHTTP h1 w1 r1).sleeps <+: [100 * Millisecond, 200 * Millisecond] := by
  have hsl : (ServeHTTP h NewRecorder r).sleeps = [backoff 0, backoff 1] := by
    simp [ServeHTTP, hlookup, fetchLoop_two_failed _ _ (hfail 0) (hfail 1), hfail 2]
  have hb : [backoff 0, backoff 1] = [100 * Millisecond, 200 * Millisecond] := by
    simp [backoff]
  refine ⟨?_, hsl, hsl.trans hb, ?_⟩
  · intro k
    simp [backoff, Nat.one_shiftLeft]
  · intro h1 w1 r1
    have p0 : ([] : List Nat) <+: [100 * Millisecond, 200 * Millisecond] := List.nil_prefix
    have p1 : [backoff 0] <+: [100 * Millisecond, 200 * Millisecond] :=
      ⟨[200 * Millisecond], by simp [backoff]⟩
    have p2 : [backoff 0, backoff 1] <+: [100 * Millisecond, 200 * Millisecond] :=
      ⟨[], by simp [backoff]⟩
    simp only [ServeHTTP]
    split
    · exact p0
    · split
      · exact p0
      · rename_i sp _
        by_cases g0 : (h1.httpClient 0 sp.PageDataURL).2 = none
        · have e := fetchLoop_first_ok h1.httpClient sp.PageDataURL
            (h1.httpClient 0 sp.PageDataURL).1 (Prod.ext rfl g0)
          simp only [e]
          split <;> [exact p0; (split <;> [exact p0; (split <;> exact p0)])]
        · by_cases g1 : (h1.httpClient 1 sp.PageDataURL).2 = none
          · simp only [fetchLoop_second_ok _ _ g0 g1]
            split <;> [exact p1; (split <;> [exact p1; (split <;> exact p1)])]
          · simp only [fetchLoop_two_failed _ _ g0 g1]
            split <;> [exact p2; (split <;> [exact p2; (split <;> exact p2)])]

/-- Upper-casing a lower-case letter gives a token byte that is not lower case. -/
theorem upper_of_lower (c : Char) (h1 : 'a' ≤ c) (h2 : c ≤ 'z') :
    ¬ ('a' ≤ Char.ofNat (c.toNat - 32)) ∧
      validHeaderFieldByte (Char.ofNat (c.toNat - 32)) = true := by
  have key : ∀ n : Fin 123, 97 ≤ n.val →
      ¬ ('a' ≤ Char.ofNat (n.val - 32)) ∧
        validHeaderFieldByte (Char.ofNat (n.val - 32)) = true := by decide
  have hn1 : 97 ≤ c.toNat := h1
  have hn2 : c.toNat ≤ 122 := h2
  exact key ⟨c.toNat, by omega⟩ hn1

/-- Lower-casing an upper-case letter gives a token byte that is not upper case. -/
theorem lower_of_upper (c : Char) (h1 : 'A' ≤ c) (h2 : c ≤ 'Z') :
    ¬ (Char.ofNat (c.toNat + 32) ≤ 'Z') ∧
      validHeaderFieldByte (Char.ofNat (c.toNat + 32)) = true := by
  have key : ∀ n : Fin 91, 65 ≤ n.val →
      ¬ (Char.ofNat (n.val + 32) ≤ 'Z') ∧
        validHeaderFieldByte (Char.ofNat (n.val + 32)) = true := by decide
  have hn1 : 65 ≤ c.toNat := h1
  have hn2 : c.toNat ≤ 90 := h2
  exact key ⟨c.toNat, by omega⟩ hn1

/-- The loop, one character at a time. -/
theorem canonicalizeLoop_cons (upper : Bool) (c : Char) (cs : List Char) :
    canonicalizeLoop upper (c :: cs) =
      canonicalizeChar upper c :: canonicalizeLoop (canonicalizeChar upper c == '-') cs := rfl

/-- A rewritten character is rewritten to itself. -/
theorem canonicalizeChar_idem (upper : Bool) (c : Char) :
    canonicalizeChar upper (canonicalizeChar upper c) = canonicalizeChar upper c := by
  unfold canonicalizeChar
  by_cases h1 : (upper && decide ('a' ≤ c) && decide (c ≤ 'z')) = true
  · simp only [h1, if_true]
    simp only [Bool.and_eq_true, decide_eq_true_eq] at h1
    have hu := (upper_of_lower c h1.1.2 h1.2).1
    simp [h1.1.1, hu]
  · simp only [h1, if_false]
    by_cases h2 : (!upper && decide ('A' ≤ c) && decide (c ≤ 'Z')) = true
    · simp only [h2, if_true]
      simp only [Bool.and_eq_true, decide_eq_true_eq, Bool.not_eq_true'] at h2
      have hl := (lower_of_upper c h2.1.2 h2.2).1
      simp [h2.1.1, hl]
    · simp [h1, h2]

/-- A rewritten token byte is a token byte. -/
theorem canonicalizeChar_valid (upper : Bool) (c : Char)
    (hc : validHeaderFieldByte c = true) :
    validHeaderFieldByte (canonicalizeChar upper c) = true := by
  unfold canonicalizeChar
  by_cases h1 : (upper && decide ('a' ≤ c) && decide (c ≤ 'z')) = true
  · simp only [h1, if_true]
    simp only [Bool.and_eq_true, decide_eq_true_eq] at h1
    exact (upper_of_lower c h1.1.2 h1.2).2
  · simp only [h1, if_false]
    by_cases h2 : (!upper && decide ('A' ≤ c) && decide (c ≤ 'Z')) = true
    · simp only [h2, if_true]
      simp only [Bool.and_eq_true, decide_eq_true_eq, Bool.not_eq_true'] at h2
      exact (lower_of_upper c h2.1.2 h2.2).2
    · simpa [h2] using hc

/-- The rewriting loop is idempotent. -/
theorem canonicalizeLoop_idem (l : List Char) (upper : Bool) :
    canonicalizeLoop upper (canonicalizeLoop upper l) = canonicalizeLoop upper l := by
  induction l generalizing upper with
  | nil => rfl
  | cons c cs ih =>
    rw [canonicalizeLoop_cons, canonicalizeLoop_cons, canonicalizeChar_idem, ih]

/-- The rewriting loop keeps token bytes token bytes. -/
theorem canonicalizeLoop_valid (l : List Char) (upper : Bool)
    (hl : l.all validHeaderFieldByte = true) :
    (canonicalizeLoop upper l).all validHeaderFieldByte = true := by
  induction l generalizing upper with
  | nil => rfl
  | cons c cs ih =>
    rw [canonicalizeLoop_cons]
    simp only [List.all_cons, Bool.and_eq_true] at hl ⊢
    exact ⟨canonicalizeChar_valid upper c hl.1, ih _ hl.2⟩

/-- The stated form is idempotent. -/
theorem canonSpec_idem (l : List Char) : canonSpec (canonSpec l) = canonSpec l := by
  unfold canonSpec
  by_cases hl : l.all validHeaderFieldByte = true
  · simp only [hl, if_true, canonicalizeLoop_valid l true hl, canonicalizeLoop_idem]
  · simp [hl]

/-- The validity scan ends in `some false` exactly for keys of token bytes. -/
theorem scanHeaderKey_eq_false (l : List Char) (noCanon : Bool) :
    scanHeaderKey noCanon l = some false ↔
      noCanon = false ∧ l.all validHeaderFieldByte = true := by
  induction l generalizing noCanon with
  | nil => simp [scanHeaderKey]
  | cons c cs ih =>
    by_cases hc : validHeaderFieldByte c = true
    · simp [scanHeaderKey, hc, ih]
    · by_cases hs : c = ' '
      · subst hs
        simp [scanHeaderKey, hc, ih]
      · simp [scanHeaderKey, hc, hs]

/-- Go `canonicalMIMEHeaderKey` computes the stated form. -/
theorem canonicalMIMEHeaderKeyBytes_eq (l : List Char) :
    canonicalMIMEHeaderKeyBytes l = canonSpec l := by
  unfold canonicalMIMEHeaderKeyBytes canonSpec
  by_cases hl : l.all validHeaderFieldByte = true
  · have := (scanHeaderKey_eq_false l false).2 ⟨rfl, hl⟩
    simp [this, hl]
  · have hne : scanHeaderKey false l ≠ some false := fun e =>
      hl ((scanHeaderKey_eq_false l false).1 e).2
    simp only [hl]
    cases hsc : scanHeaderKey false l with
    | none => simp
    | some b =>
      cases b with
      | true => simp
      | false => exact absurd hsc hne

/-- The quick check computes the stated form, given that what it has passed is
made of token bytes and already in canonical case. -/
theorem quickCheck_eq (rest : List Char) :
    ∀ (upper : Bool) (pre : List Char),
      pre.all validHeaderFieldByte = true →
      canonicalizeLoop true (pre ++ rest) = pre ++ canonicalizeLoop upper rest →
      quickCheck (pre ++ rest) upper rest = canonSpec (pre ++ rest) := by
  induction rest with
  | nil =>
    intro upper pre hpre hloop
    simp only [List.append_nil] at hloop ⊢
    simp [quickCheck, canonSpec, hpre, hloop, canonicalizeLoop]
  | cons c cs ih =>
    intro upper pre hpre hloop
    rw [quickCheck]
    by_cases hc : validHeaderFieldByte c = true
    · simp only [hc, Bool.not_true, Bool.false_eq_true, if_false]
      by_cases h1 : (upper && decide ('a' ≤ c) && decide (c ≤ 'z')) = true
      · simp only [h1, if_true, canonicalMIMEHeaderKeyBytes_eq]
      · simp only [h1, if_false]
        by_cases h2 : (!upper && decide ('A' ≤ c) && decide (c ≤ 'Z')) = true
        · simp [h2, canonicalMIMEHeaderKeyBytes_eq]
        · simp only [h2, if_false]
          have hstep : canonicalizeChar upper c = c := by
            simp [canonicalizeChar, h1, h2]
          have happ : pre ++ c :: cs = (pre ++ [c]) ++ cs := by simp
          rw [happ]
          apply ih (c == '-') (pre ++ [c])
          · simp [hpre, hc]
          · rw [← happ, hloop, canonicalizeLoop_cons, hstep]
            simp
    · have hall : ¬ (pre ++ c :: cs).all validHeaderFieldByte = true := by
        simp [hc]
      simp [hc, canonSpec, hall]

/-- Go `CanonicalMIMEHeaderKey` computes the stated form. -/
theorem CanonicalMIMEHeaderKey_eq (s : String) :
    CanonicalMIMEHeaderKey s = String.mk (canonSpec s.data) := by
  unfold CanonicalMIMEHeaderKey
  have := quickCheck_eq s.data true [] rfl rfl
  simp only [List.nil_append] at this
  rw [this]

/-- Canonical forms are canonical: a key that `CanonicalMIMEHeaderKey` produced,
as the keys of a response read by the client are, is left unchanged by it. -/
theorem CanonicalMIMEHeaderKey_idem (s : String) :
    CanonicalMIMEHeaderKey (CanonicalMIMEHeaderKey s) = CanonicalMIMEHeaderKey s := by
  rw [CanonicalMIMEHeaderKey_eq (CanonicalMIMEHeaderKey s), CanonicalMIMEHeaderKey_eq s]
  simp [canonSpec_idem]

/-- A header map whose keys were all put through `CanonicalMIMEHeaderKey`, as
the client does with the names it reads off the wire, has canonical keys. -/
theorem Header.canonical_of_read (wire : List (String × List String)) :
    Header.Canonical (wire.map (fun e => (CanonicalMIMEHeaderKey e.1, e.2))) := by
  intro e he
  obtain ⟨w, _, rfl⟩ := List.mem_map.1 he
  exact CanonicalMIMEHeaderKey_idem w.1

/-- Reading a map after a write. -/
theorem Header.values_put (h : Header) (key name : String) (vs : List String) :
    Header.values (Header.put h key vs) name =
      if key = name then vs else Header.values h name := by
  induction h with
  | nil => simp [Header.put, Header.values]
  | cons e t ih =>
    obtain ⟨k, old⟩ := e
    by_cases hk : k = key
    · subst hk
      by_cases hn : k = name <;> simp [Header.put, Header.values, hn]
    · by_cases hn : k = name
      · subst hn
        have : ¬ key = k := fun e => hk e.symm
        simp [Header.put, Header.values, hk, this]
      · simp [Header.put, Header.values, hk, hn, ih]

/-- Reading a map after `Add`. -/
theorem Header.values_Add (h : Header) (key value name : String) :
    Header.values (Header.Add h key value) name =
      if CanonicalMIMEHeaderKey key = name then Header.values h name ++ [value]
      else Header.values h name := by
  simp only [Header.Add, Header.values_put]
  by_cases hn : CanonicalMIMEHeaderKey key = name
  · simp [hn]
  · simp [hn]

/-- The inner loop of the header copy: all values of one key are appended in order. -/
theorem Header.values_addAll (vs : List String) (h : Header) (key name : String) :
    Header.values (vs.foldl (fun acc1 value => Header.Add acc1 key value) h) name =
      if CanonicalMIMEHeaderKey key = name then Header.values h name ++ vs
      else Header.values h name := by
  induction vs generalizing h with
  | nil => simp
  | cons v t ih =>
    simp only [List.foldl_cons, ih, Header.values_Add]
    by_cases hn : CanonicalMIMEHeaderKey key = name <;> simp [hn]

/-- The header copy: under every name the writer ends with what it had, followed
by the source's values for the keys that canonicalise to that name. -/
theorem values_copyHeader (src dst : Header) (name : String) :
    Header.values (copyHeader dst src) name =
      Header.values dst name ++ Header.valuesUnder src name := by
  induction src generalizing dst with
  | nil => simp [copyHeader, Header.valuesUnder]
  | cons e t ih =>
    obtain ⟨k, vs⟩ := e
    have hstep : copyHeader dst ((k, vs) :: t) =
        copyHeader (vs.foldl (fun acc1 value => Header.Add acc1 k value) dst) t := rfl
    rw [hstep, ih, Header.values_addAll]
    by_cases hn : CanonicalMIMEHeaderKey k = name <;> simp [Header.valuesUnder, hn]

/-- In a map with canonical keys, a name that is no key has no values under it. -/
theorem Header.valuesUnder_absent (h : Header) (name : String)
    (hcanon : Header.Canonical h) (habs : name ∉ h.map Prod.fst) :
    Header.valuesUnder h name = [] := by
  induction h with
  | nil => rfl
  | cons e t ih =>
    obtain ⟨k, vs⟩ := e
    have hk : CanonicalMIMEHeaderKey k = k := hcanon (k, vs) (List.mem_cons_self _ _)
    have hne : ¬ k = name := by
      intro e; apply habs; simp [e]
    have ht : Header.valuesUnder t name = [] :=
      ih (fun e he => hcanon e (List.mem_cons_of_mem _ he))
        (fun hm => habs (by simp only [List.map_cons, List.mem_cons]; exact Or.inr hm))
    simp [Header.valuesUnder, hk, hne, ht]

/-- In a map with canonical keys, the values under a name are the map's values
for that name. -/
theorem Header.valuesUnder_eq_values (h : Header) (name : String)
    (hmap : Header.IsMap h) (hcanon : Header.Canonical h) :
    Header.valuesUnder h name = Header.values h name := by
  induction h with
  | nil => rfl
  | cons e t ih =>
    obtain ⟨k, vs⟩ := e
    have hk : CanonicalMIMEHeaderKey k = k := hcanon (k, vs) (List.mem_cons_self _ _)
    have hnd : k ∉ t.map Prod.fst ∧ (t.map Prod.fst).Nodup := by
      simpa [Header.IsMap] using hmap
    have hct : Header.Canonical t := fun e he => hcanon e (List.mem_cons_of_mem _ he)
    by_cases hn : k = name
    · subst hn
      simp [Header.valuesUnder, Header.values, hk, Header.valuesUnder_absent t k hct hnd.1]
    · simp [Header.valuesUnder, Header.values, hk, hn, ih hnd.2 hct]

/-- C7: a 200 response on the first fetch is relayed with status 200, with the
backend's body byte for byte, and with, under every header name, exactly the
backend's list of values for that name in the same order. The backend's header
is the map `net/http`'s client hands out: its keys are in canonical form. -/
theorem ServeHTTP_relays_response (h : ProxyHandler) (r : Request) (statusPage : StatusPage)
    (resp : Response)
    (hlookup : h.repository r.Host = (some statusPage, none))
    (hget : h.httpClient 0 statusPage.PageDataURL = (some resp, none))
    (hstatus : resp.StatusCode = 200)
    (hmap : Header.IsMap resp.Header) (hcanon : Header.Canonical resp.Header) :
    (ServeHTTP h NewRecorder r).w.Code = 200 ∧
      (ServeHTTP h NewRecorder r).w.Body = resp.Body ∧
      (∀ name, Header.values (ServeHTTP h NewRecorder r).w.sent name =
        Header.values resp.Header name) ∧
      (ServeHTTP h NewRecorder r).fetches.length = 1 ∧
      (ServeHTTP h NewRecorder r).sleeps = [] := by
  have hout : ServeHTTP h NewRecorder r =
      { w := { HeaderMap := copyHeader [] resp.Header, wroteHeader := true, Code := 200,
               sent := copyHeader [] resp.Header, Body := resp.Body },
        fetches := [statusPage.PageDataURL], sleeps := [], panicked := false } := by
    simp [ServeHTTP, hlookup, fetchLoop_first_ok _ _ _ hget, StatusOK, hstatus,
      ResponseRecorder.WriteHeader, ResponseRecorder.Write, NewRecorder]
  rw [hout]
  refine ⟨rfl, rfl, ?_, rfl, rfl⟩
  intro name
  simp only [values_copyHeader, Header.valuesUnder_eq_values _ _ hmap hcanon]
  simp [Header.values]

/-- C7 at a backend whose response has a header name with two values. -/
theorem ServeHTTP_relays_response_witness :
    Header.IsMap acmeResponse.Header ∧ Header.Canonical acmeResponse.Header ∧
      ((ServeHTTP healthyBackend NewRecorder acmeRequest).w.Code = 200 ∧
        (ServeHTTP healthyBackend NewRecorder acmeRequest).w.Body = acmeResponse.Body ∧
        (∀ name, Header.values (ServeHTTP healthyBackend NewRecorder acmeRequest).w.sent name =
          Header.values acmeResponse.Header name) ∧
        (ServeHTTP healthyBackend NewRecorder acmeRequest).fetches.length = 1 ∧
        (ServeHTTP healthyBackend NewRecorder acmeRequest).sleeps = []) :=
  ⟨by decide, by decide,
    ServeHTTP_relays_response healthyBackend acmeRequest acmePage acmeResponse rfl rfl rfl
      (by decide) (by decide)⟩

/-- The three cases of `TestProxyHandler`, computed: the successful proxy (here
with two header names), the unknown domain and the unreachable backend. -/
theorem ServeHTTP_tests :
    (ServeHTTP healthyBackend NewRecorder acmeRequest).w.Code = 200 ∧
      (ServeHTTP healthyBackend NewRecorder acmeRequest).w.Body = [65, 67, 77, 69] ∧
      (ServeHTTP healthyBackend NewRecorder acmeRequest).w.sent =
        [("Set-Cookie", ["a=1", "b=2"]), ("Content-Type", ["text/html"])] ∧
      (ServeHTTP emptyDirectory NewRecorder { Host := "unknown.com" }).w.Code = 404 ∧
      (ServeHTTP emptyDirectory NewRecorder { Host := "unknown.com" }).w.sent =
        [("Content-Type", ["text/plain; charset=utf-8"]),
          ("X-Content-Type-Options", ["nosniff"])] ∧
      (ServeHTTP unreachableBackend NewRecorder { Host := "status.error.com" }).w.Code = 502 ∧
      (ServeHTTP unreachableBackend NewRecorder { Host := "status.error.com" }).fetches =
        ["http://backend/error", "http://backend/error", "http://backend/error"] := by
  decide

/-- The canonical form of some header names. -/
theorem CanonicalMIMEHeaderKey_tests :
    CanonicalMIMEHeaderKey "content-type" = "Content-Type" ∧
      CanonicalMIMEHeaderKey "Set-Cookie" = "Set-Cookie" ∧
      CanonicalMIMEHeaderKey "x-FOO-bar" = "X-Foo-Bar" ∧
      CanonicalMIMEHeaderKey "x-foo bar" = "x-foo bar" ∧
      CanonicalMIMEHeaderKey "" = "" := by
  decide

/-! ## Theorems: the backend directory -/

/-- No occurrence means no index. -/
theorem indexByte_eq_none (l : List Char) (c : Char) (h : c ∉ l) : indexByte l c = none := by
  induction l with
  | nil => rfl
  | cons x t ih =>
    have hx : ¬ x = c := fun e => h (by simp [e])
    have ht : c ∉ t := fun m => h (List.mem_cons_of_mem _ m)
    simp [indexByte, hx, ih ht]

/-- No occurrence means no last index. -/
theorem lastIndexByte_eq_none (l : List Char) (c : Char) (h : c ∉ l) :
    lastIndexByte l c = none := by
  induction l with
  | nil => rfl
  | cons x t ih =>
    have hx : ¬ x = c := fun e => h (by simp [e])
    have ht : c ∉ t := fun m => h (List.mem_cons_of_mem _ m)
    simp [lastIndexByte, hx, ih ht]

/-- The last colon of `a ++ ":" ++ b` is the one written between them when `b`
holds none. -/
theorem lastIndexByte_append (a b : List Char) (c : Char) (hb : c ∉ b) :
    lastIndexByte (a ++ c :: b) c = some a.length := by
  induction a with
  | nil => simp [lastIndexByte, lastIndexByte_eq_none b c hb]
  | cons x t ih => simp [lastIndexByte, ih]

/-- The key computed for a string without a colon is the string itself. -/
theorem hostKey_no_colon (s : String) (hs : ':' ∉ s.data) : hostKey s = s := by
  simp [hostKey, SplitHostPort, lastIndexByte_eq_none _ _ hs, addrErr]

/-- The key computed for `h ++ ":" ++ p` is `h` when neither part holds a colon
or a square bracket. -/
theorem hostKey_host_port (h p : String)
    (hh : ':' ∉ h.data ∧ '[' ∉ h.data ∧ ']' ∉ h.data)
    (hp : ':' ∉ p.data ∧ '[' ∉ p.data ∧ ']' ∉ p.data) :
    hostKey (h ++ ":" ++ p) = h := by
  have hdata : (h ++ ":" ++ p).data = h.data ++ ':' :: p.data := by
    simp [String.data_append]
  have hlast := lastIndexByte_append h.data p.data ':' hp.1
  have hhead : ¬ (h.data ++ ':' :: p.data).head? = some '[' := by
    cases hd : h.data with
    | nil => simp
    | cons x t =>
      have : ¬ x = '[' := fun e => hh.2.1 (by simp [hd, e])
      simp [this]
  have hopen : indexByte (h.data ++ ':' :: p.data) '[' = none :=
    indexByte_eq_none _ _ (by simp [hh.2.1, hp.2.1])
  have hclose : indexByte (h.data ++ ':' :: p.data) ']' = none :=
    indexByte_eq_none _ _ (by simp [hh.2.2, hp.2.2])
  have hcolon : indexByte h.data ':' = none := indexByte_eq_none _ _ hh.1
  have hhead1 : ¬ h.data.head? = some '[' := by
    cases hd : h.data with
    | nil => simp
    | cons x t =>
      have : ¬ x = '[' := fun e => hh.2.1 (by simp [hd, e])
      simp [this]
  simp [hostKey, SplitHostPort, hdata, hlast, hhead, hhead1, hopen, hclose, hcolon]

/-- The last index lies inside the string. -/
theorem lastIndexByte_lt (l : List Char) (c : Char) :
    ∀ i, lastIndexByte l c = some i → i < l.length := by
  induction l with
  | nil => simp [lastIndexByte]
  | cons x t ih =>
    intro i hi
    rw [lastIndexByte] at hi
    cases ht : lastIndexByte t c with
    | some k =>
      rw [ht] at hi
      have := ih k ht
      simp only [Option.some.injEq] at hi
      simp only [List.length_cons]
      omega
    | none =>
      rw [ht] at hi
      by_cases hx : x = c
      · simp only [hx, if_true, Option.some.injEq] at hi
        simp only [List.length_cons]
        omega
      · simp [hx] at hi

/-- No last index means no occurrence. -/
theorem not_mem_of_lastIndexByte (l : List Char) (c : Char) :
    lastIndexByte l c = none → c ∉ l := by
  induction l with
  | nil => simp
  | cons x t ih =>
    intro h
    rw [lastIndexByte] at h
    cases ht : lastIndexByte t c with
    | some k => simp [ht] at h
    | none =>
      rw [ht] at h
      by_cases hx : x = c
      · simp [hx] at h
      · intro hm
        rcases List.mem_cons.1 hm with e | e
        · exact hx e.symm
        · exact ih ht e

/-- Nothing follows the last index. -/
theorem lastIndexByte_drop (l : List Char) (c : Char) :
    ∀ i, lastIndexByte l c = some i → c ∉ l.drop (i + 1) := by
  induction l with
  | nil => simp [lastIndexByte]
  | cons x t ih =>
    intro i hi
    rw [lastIndexByte] at hi
    cases ht : lastIndexByte t c with
    | some k =>
      rw [ht] at hi
      simp only [Option.some.injEq] at hi
      subst hi
      simpa using ih k ht
    | none =>
      rw [ht] at hi
      by_cases hx : x = c
      · simp only [hx, if_true, Option.some.injEq] at hi
        subst hi
        simpa using not_mem_of_lastIndexByte t c ht
      · simp [hx] at hi

/-- The last index of `a ++ c :: b` is not before the `c` written between. -/
theorem lastIndexByte_append_ge (a b : List Char) (c : Char) :
    ∃ i, lastIndexByte (a ++ c :: b) c = some i ∧ a.length ≤ i := by
  induction a with
  | nil =>
    cases hb : lastIndexByte b c with
    | some k => exact ⟨k + 1, by simp [lastIndexByte, hb], by simp⟩
    | none => exact ⟨0, by simp [lastIndexByte, hb], by simp⟩
  | cons x t ih =>
    obtain ⟨i, hi, hle⟩ := ih
    exact ⟨i + 1, by simp [lastIndexByte, hi], by simp [hle]⟩

/-- The first index in a string is the first index in every extension of it. -/
theorem indexByte_append_left (a b : List Char) (c : Char) :
    ∀ e, indexByte a c = some e → indexByte (a ++ b) c = some e := by
  induction a with
  | nil => simp [indexByte]
  | cons x t ih =>
    intro e he
    by_cases hx : x = c
    · simpa [indexByte, hx] using he
    · simp only [indexByte, hx, if_false, Option.map_eq_some'] at he
      obtain ⟨k, hk, rfl⟩ := he
      simp [indexByte, hx, ih k hk]

/-- A prefix without `c` of `a ++ c :: b` is a prefix of `a`. -/
theorem le_of_not_mem_take (a b : List Char) (c : Char) (i : Nat)
    (h : c ∉ (a ++ c :: b).take i) : i ≤ a.length := by
  by_contra hgt
  apply h
  rw [List.take_append_eq_append_take]
  have : i - a.length = (i - a.length - 1) + 1 := by omega
  rw [this]
  simp

/-- What a successful `SplitHostPort` has checked and what host it returns. -/
theorem SplitHostPort_ok (x : String) (hok : (SplitHostPort x).2.2 = none) :
    ∃ i, lastIndexByte x.data ':' = some i ∧
      ((¬ x.data.head? = some '[' ∧
          (indexByte (x.data.take i) ':').isSome = false ∧
          (indexByte x.data '[').isSome = false ∧
          (indexByte x.data ']').isSome = false ∧
          (SplitHostPort x).1 = String.mk (x.data.take i)) ∨
        (x.data.head? = some '[' ∧
          ∃ e, indexByte x.data ']' = some e ∧ e + 1 = i ∧
            (indexByte (x.data.drop 1) '[').isSome = false ∧
            (SplitHostPort x).1 = String.mk ((x.data.take e).drop 1))) := by
  cases hlast : lastIndexByte x.data ':' with
  | none => simp [SplitHostPort, hlast, addrErr] at hok
  | some i =>
    refine ⟨i, rfl, ?_⟩
    by_cases hb : x.data.head? = some '['
    · right
      refine ⟨hb, ?_⟩
      cases he : indexByte x.data ']' with
      | none => simp [SplitHostPort, hlast, hb, he, addrErr] at hok
      | some e =>
        by_cases h1 : e + 1 = x.data.length
        · simp only [SplitHostPort, hlast, hb, he, h1, if_true, addrErr] at hok
          simp at hok
        · by_cases h2 : e + 1 = i
          · subst h2
            by_cases h3 : (indexByte (x.data.drop 1) '[').isSome = true
            · simp only [SplitHostPort, hlast, hb, he, h1, h3, if_true, if_false,
                addrErr] at hok
              simp at hok
            · by_cases h4 : (indexByte (x.data.drop (e + 1)) ']').isSome = true
              · simp only [SplitHostPort, hlast, hb, he, h1, h3, h4, if_true, if_false,
                  addrErr] at hok
                simp at hok
              · refine ⟨e, rfl, rfl, by simpa using h3, ?_⟩
                simp only [SplitHostPort, hlast, hb, he, h1, h3, h4, if_true, if_false]
                simp
          · by_cases h5 : (x.data.drop (e + 1)).head? = some ':'
            · simp only [SplitHostPort, hlast, hb, he, h1, h2, h5, if_true, if_false,
                addrErr] at hok
              simp at hok
            · simp only [SplitHostPort, hlast, hb, he, h1, h2, h5, if_true, if_false,
                addrErr] at hok
              simp at hok
    · left
      refine ⟨hb, ?_⟩
      by_cases h1 : (indexByte (x.data.take i) ':').isSome = true
      · simp only [SplitHostPort, hlast, hb, h1, if_true, if_false, addrErr] at hok
        simp at hok
      · by_cases h3 : (indexByte (x.data.drop 0) '[').isSome = true
        · simp only [SplitHostPort, hlast, hb, h1, h3, if_true, if_false, addrErr] at hok
          simp at hok
        · by_cases h4 : (indexByte (x.data.drop 0) ']').isSome = true
          · simp only [SplitHostPort, hlast, hb, h1, h3, h4, if_true, if_false, addrErr] at hok
            simp at hok
          · refine ⟨by simpa using h1, by simpa using h3, by simpa using h4, ?_⟩
            simp only [SplitHostPort, hlast, hb, h1, h3, h4, if_true, if_false]
            simp

/-- An occurrence has an index. -/
theorem indexByte_isSome_of_mem (l : List Char) (c : Char) (h : c ∈ l) :
    (indexByte l c).isSome = true := by
  induction l with
  | nil => simp at h
  | cons x t ih =>
    by_cases hx : x = c
    · simp [indexByte, hx]
    · have ht : c ∈ t := by
        rcases List.mem_cons.1 h with e | e
        · exact absurd e.symm hx
        · exact e
      simp [indexByte, hx, ih ht]

/-- The key is never longer than the host name it is computed from. -/
theorem hostKey_length_le (x : String) : (hostKey x).data.length ≤ x.data.length := by
  by_cases hok : (SplitHostPort x).2.2 = none
  · obtain ⟨i, _, hcase⟩ := SplitHostPort_ok x hok
    have hk : hostKey x = (SplitHostPort x).1 := by simp [hostKey, hok]
    rcases hcase with ⟨_, _, _, _, hhost⟩ | ⟨_, e, _, _, _, hhost⟩
    · rw [hk, hhost]
      simp
    · rw [hk, hhost]
      simp only [List.length_drop, List.length_take]
      omega
  · simp [hostKey, hok]

/-- The keys of `h ++ ":" ++ p` and of `h` agree only when neither `h` nor `p`
holds a colon or a square bracket. -/
theorem hostKey_host_port_only_if (h p : String)
    (heq : hostKey (h ++ ":" ++ p) = hostKey h) :
    (':' ∉ h.data ∧ '[' ∉ h.data ∧ ']' ∉ h.data) ∧
      (':' ∉ p.data ∧ '[' ∉ p.data ∧ ']' ∉ p.data) := by
  have hdata : (h ++ ":" ++ p).data = h.data ++ ':' :: p.data := by
    simp [String.data_append]
  have hlen := hostKey_length_le h
  by_cases hok : (SplitHostPort (h ++ ":" ++ p)).2.2 = none
  · obtain ⟨i, hi, hcase⟩ := SplitHostPort_ok _ hok
    rw [hdata] at hi hcase
    obtain ⟨i1, hi1, hge⟩ := lastIndexByte_append_ge h.data p.data ':'
    have hii : i1 = i := Option.some.inj (hi1.symm.trans hi)
    subst hii
    rcases hcase with ⟨_, hcol, hopen, hclose, _⟩ | ⟨hb, e, he, hei, hopen, hhost⟩
    · have hnc : ':' ∉ (h.data ++ ':' :: p.data).take i1 := fun hm => by
        have := indexByte_isSome_of_mem _ _ hm
        simp [hcol] at this
      have hle := le_of_not_mem_take _ _ _ _ hnc
      have hi2 : i1 = h.data.length := by omega
      have hno : '[' ∉ h.data ++ ':' :: p.data := fun hm => by
        have := indexByte_isSome_of_mem _ _ hm
        simp [hopen] at this
      have hnc2 : ']' ∉ h.data ++ ':' :: p.data := fun hm => by
        have := indexByte_isSome_of_mem _ _ hm
        simp [hclose] at this
      have hp1 := lastIndexByte_drop _ _ _ hi
      subst hi2
      simp only [List.take_left', List.mem_append, List.mem_cons, not_or] at hnc hno hnc2
      have hp2 : ':' ∉ p.data := by
        have hd : (h.data ++ ':' :: p.data).drop (h.data.length + 1) = p.data := by
          rw [List.drop_append_eq_append_drop]
          simp
        rw [hd] at hp1
        exact hp1
      exact ⟨⟨hnc, hno.1, hnc2.1⟩, ⟨hp2, hno.2.2, hnc2.2.2⟩⟩
    · exfalso
      have hk : hostKey (h ++ ":" ++ p) = String.mk (((h.data ++ ':' :: p.data).take e).drop 1) := by
        simp only [hostKey, hok]
        simpa [hdata] using hhost
      have hhead : h.data.head? = some '[' := by
        cases hd : h.data with
        | nil => simp [hd] at hb
        | cons x t => simpa [hd] using hb
      have hin : '[' ∈ h.data := by
        cases hd : h.data with
        | nil => simp [hd] at hhead
        | cons x t =>
          simp only [hd, List.head?_cons, Option.some.injEq] at hhead
          simp [hhead]
      have hnotin : '[' ∉ ((h.data ++ ':' :: p.data).take e).drop 1 := fun hm => by
        rw [List.drop_take] at hm
        have := indexByte_isSome_of_mem _ _ (List.mem_of_mem_take hm)
        rw [hopen] at this
        exact Bool.noConfusion this
      by_cases hokh : (SplitHostPort h).2.2 = none
      · obtain ⟨ih, hih, hcaseh⟩ := SplitHostPort_ok h hokh
        rcases hcaseh with ⟨hnb, _⟩ | ⟨_, eh, heh, hehi, _, _⟩
        · exact hnb hhead
        · have he2 := indexByte_append_left h.data (':' :: p.data) ']' eh heh
          have hee : eh = e := Option.some.inj (he2.symm.trans he)
          have hlt := lastIndexByte_lt _ _ _ hih
          omega
      · have hkh : hostKey h = h := by simp [hostKey, hokh]
        rw [hk, hkh] at heq
        have hd := congrArg String.data heq
        simp only at hd
        rw [hd] at hnotin
        exact hnotin hin
  · exfalso
    have hk : hostKey (h ++ ":" ++ p) = h ++ ":" ++ p := by simp [hostKey, hok]
    rw [hk] at heq
    have : (h ++ ":" ++ p).data.length = (hostKey h).data.length := by rw [heq]
    rw [hdata] at this
    simp only [List.length_append, List.length_cons] at this
    omega

/-- C8, as stated, fails: for the host "[::1]" and the port "443" the lookup with
the port queries the key "::1" and the lookup without it the key "[::1]", and
they resolve to different results. -/
theorem FindByHostname_port_counterexample :
    hostKey ("[::1]" ++ ":" ++ "443") = "::1" ∧
      hostKey "[::1]" = "[::1]" ∧
      FindByHostname loopbackDB ("[::1]" ++ ":" ++ "443") =
        (some { ID := 7, Hostname := "::1", PageDataURL := "http://backend/loopback" }, none) ∧
      FindByHostname loopbackDB "[::1]" = (none, none) ∧
      FindByHostname loopbackDB ("[::1]" ++ ":" ++ "443") ≠ FindByHostname loopbackDB "[::1]" := by
  decide

/-- C8, amended: for a host `h` and a port `p` that hold no colon and no square
bracket, the lookups of `h ++ ":" ++ p` and of `h` query the directory with the
same key, `h`, and return the same result; and for every string from which no
port can be split the key is that string, and the failure to split is not
returned: a scan without error gives a lookup without error. -/
theorem FindByHostname_strips_port (db : DB) (h p : String)
    (hh : ':' ∉ h.data ∧ '[' ∉ h.data ∧ ']' ∉ h.data)
    (hp : ':' ∉ p.data ∧ '[' ∉ p.data ∧ ']' ∉ p.data) :
    hostKey (h ++ ":" ++ p) = hostKey h ∧
      hostKey h = h ∧
      FindByHostname db (h ++ ":" ++ p) = FindByHostname db h ∧
      ∀ s : String, (SplitHostPort s).2.2 ≠ none →
        hostKey s = s ∧
        ((db findQuery s { ID := 0, Hostname := "", PageDataURL := "" }).2 = none →
          (FindByHostname db s).2 = none) := by
  have h1 := hostKey_host_port h p hh hp
  have h2 := hostKey_no_colon h hh.1
  refine ⟨h1.trans h2.symm, h2, ?_, ?_⟩
  · simp only [FindByHostname, h1, h2]
  · intro s hs
    have hk : hostKey s = s := by simp [hostKey, hs]
    refine ⟨hk, ?_⟩
    intro hscan
    simp [FindByHostname, hk, hscan]

/-- C8, amended, at "status.acme.com" and the port "443". -/
theorem FindByHostname_strips_port_witness :
    (':' ∉ "status.acme.com".data ∧ '[' ∉ "status.acme.com".data ∧
        ']' ∉ "status.acme.com".data) ∧
      (':' ∉ "443".data ∧ '[' ∉ "443".data ∧ ']' ∉ "443".data) ∧
      hostKey ("status.acme.com" ++ ":" ++ "443") = hostKey "status.acme.com" ∧
      hostKey "status.acme.com" = "status.acme.com" ∧
      FindByHostname acmeDB ("status.acme.com" ++ ":" ++ "443") =
        FindByHostname acmeDB "status.acme.com" :=
  ⟨by decide, by decide,
    (FindByHostname_strips_port acmeDB "status.acme.com" "443" (by decide) (by decide)).1,
    (FindByHostname_strips_port acmeDB "status.acme.com" "443" (by decide) (by decide)).2.1,
    (FindByHostname_strips_port acmeDB "status.acme.com" "443" (by decide) (by decide)).2.2.1⟩

/-- C10: the result of `FindByHostname` is fixed by the row scan: the scanned
record and no error when the scan succeeds; no record and no error exactly
when the scan's error is or wraps `ErrNoRows`; no record and the scan's own
error for every other scan error. -/
theorem FindByHostname_outcomes (db : DB) (hostname : String) :
    ((db findQuery (hostKey hostname) { ID := 0, Hostname := "", PageDataURL := "" }).2 = none →
        FindByHostname db hostname =
          (some (db findQuery (hostKey hostname)
            { ID := 0, Hostname := "", PageDataURL := "" }).1, none)) ∧
      (∀ err, (db findQuery (hostKey hostname)
            { ID := 0, Hostname := "", PageDataURL := "" }).2 = some err →
          errorsIs err ErrNoRows = true → FindByHostname db hostname = (none, none)) ∧
      (∀ err, (db findQuery (hostKey hostname)
            { ID := 0, Hostname := "", PageDataURL := "" }).2 = some err →
          errorsIs err ErrNoRows = false → FindByHostname db hostname = (none, some err)) ∧
      (FindByHostname db hostname = (none, none) ↔
        ∃ err, (db findQuery (hostKey hostname)
            { ID := 0, Hostname := "", PageDataURL := "" }).2 = some err ∧
          errorsIs err ErrNoRows = true) := by
  refine ⟨?_, ?_, ?_, ?_⟩
  · intro hs
    simp [FindByHostname, hs]
  · intro err hs he
    simp [FindByHostname, hs, he]
  · intro err hs he
    simp [FindByHostname, hs, he]
  · simp only [FindByHostname]
    cases hs : (db findQuery (hostKey hostname)
        { ID := 0, Hostname := "", PageDataURL := "" }).2 with
    | none => simp
    | some err =>
      by_cases he : errorsIs err ErrNoRows = true
      · simp [he]
      · simp [he]

/-- C10 at the directory of `TestFindByHostname`: the unknown host, asked for
with a port, scans to `ErrNoRows` and is reported as no record and no error. -/
theorem FindByHostname_outcomes_witness :
    (acmeDB findQuery (hostKey "unknown.com:443")
        { ID := 0, Hostname := "", PageDataURL := "" }).2 = some ErrNoRows ∧
      FindByHostname acmeDB "unknown.com:443" = (none, none) :=
  ⟨by decide, (FindByHostname_outcomes acmeDB "unknown.com:443").2.1 ErrNoRows (by decide)
    (by decide)⟩

/-- The cases of `TestFindByHostname`, and a storage failure, plain and wrapping
`ErrNoRows`. -/
theorem FindByHostname_tests :
    FindByHostname acmeDB "status.acme.com" = (some acmePage, none) ∧
      FindByHostname acmeDB "unknown.com" = (none, none) ∧
      FindByHostname acmeDB "status.acme.com:443" = (some acmePage, none) ∧
      FindByHostname failingDB "status.acme.com" =
        (none, some (GoError.sentinel "connection reset")) ∧
      FindByHostname (fun _ _ sp => (sp, some (GoError.wrapped "scan" ErrNoRows)))
        "status.acme.com" = (none, none) := by
  decide

/-- Keys `net.SplitHostPort` leaves alone or strips, on concrete host names. -/
theorem hostKey_tests :
    hostKey "status.acme.com:443" = "status.acme.com" ∧
      hostKey "status.acme.com" = "status.acme.com" ∧
      hostKey ":443" = "" ∧
      hostKey "" = "" ∧
      hostKey "fe80::1:443" = "fe80::1:443" ∧
      hostKey "[fe80::1]:443" = "fe80::1" ∧
      hostKey "status.acme.com:44[3" = "status.acme.com:44[3" := by
  decide

/-! ## Theorems: the certificate resolver -/

/-- C9: the callback built by `setupHTTPSServer` never returns an error; for the
names "localhost" and "127.0.0.1" it returns the generated self-signed
certificate without consulting the obtainer; for any other name it returns that
same certificate when the obtainer fails and the obtainer's certificate when it
does not. -/
theorem GetCertificate_never_fails (generated : TLSCertificate × Option GoError)
    (callback : Obtainer → ClientHelloInfo → CertResult)
    (hbuilt : setupHTTPSServer generated = some callback) :
    ∀ (certManager : Obtainer) (hello : ClientHelloInfo),
      (callback certManager hello).err = none ∧
      (hello.ServerName = "localhost" ∨ hello.ServerName = "127.0.0.1" →
        (callback certManager hello).cert = some generated.1 ∧
        (callback certManager hello).consulted = []) ∧
      (¬ (hello.ServerName = "localhost" ∨ hello.ServerName = "127.0.0.1") →
        (certManager hello).2 ≠ none →
        (callback certManager hello).cert = some generated.1) ∧
      (¬ (hello.ServerName = "localhost" ∨ hello.ServerName = "127.0.0.1") →
        (certManager hello).2 = none →
        (callback certManager hello).cert = (certManager hello).1) := by
  intro certManager hello
  unfold setupHTTPSServer at hbuilt
  split at hbuilt
  · exact absurd hbuilt (by simp)
  · have hcb : callback = GetCertificate generated.1 := (Option.some.inj hbuilt).symm
    subst hcb
    refine ⟨?_, ?_, ?_, ?_⟩
    · by_cases hlocal : hello.ServerName = "localhost" ∨ hello.ServerName = "127.0.0.1"
      · simp only [GetCertificate, hlocal, if_true]
      · by_cases hfail : (certManager hello).2 = none <;> simp [GetCertificate, hlocal, hfail]
    · intro hlocal
      simp only [GetCertificate, hlocal, if_true, and_self]
    · intro hother hfail
      simp only [GetCertificate, hother, if_false, hfail, ne_eq, not_false_eq_true, if_true]
    · intro hother hok
      simp [GetCertificate, hother, hok]

/-- C9 at the empty server name, for which the obtainer fails. -/
theorem GetCertificate_never_fails_witness :
    setupHTTPSServer (selfSigned, none) = some (GetCertificate selfSigned) ∧
      (GetCertificate selfSigned acmeObtainer { ServerName := "" }).err = none ∧
      (GetCertificate selfSigned acmeObtainer { ServerName := "" }).cert = some selfSigned :=
  ⟨rfl,
    (GetCertificate_never_fails (selfSigned, none) (GetCertificate selfSigned) rfl
      acmeObtainer { ServerName := "" }).1,
    (GetCertificate_never_fails (selfSigned, none) (GetCertificate selfSigned) rfl
      acmeObtainer { ServerName := "" }).2.2.1 (by decide) (by decide)⟩

end RootlyProxy
